import Mathlib

/-!
Verification of the cldzmsg messaging system core against its specification.

The Go sources are shallowly embedded: pure functions become Lean functions,
stateful code becomes explicit state passing, machine integers become Int/Nat,
fallible operations return Option/Except.  External collaborators (database,
JSON codec, AES-GCM internals) are abstracted by oracle parameters or by
executable models of their documented contracts.
-/

namespace Cldzmsg

/-! ## Rate limiter (cmd/server/main.go, internal/server/ratelimit)

`RateLimiter` holds per-address connection counts and per-address lists of
authentication-attempt timestamps.  Timestamps are modelled as `Int` seconds;
`t.After(cutoff)` is `cutoff < t`.  Go map lookups default to the zero value,
so the maps are modelled as total functions with default `0` / `[]`. -/

structure RateLimiter where
  connections : String → Int
  authAttempts : String → List Int
  maxConns : Int
  maxAuth : Int

/-- Fresh limiter as built by `newRateLimiter` (defaults 10 connections/IP,
5 auth attempts/min, both overridable via environment). -/
def newRateLimiter (maxConns maxAuth : Int) : RateLimiter :=
  ⟨fun _ => 0, fun _ => [], maxConns, maxAuth⟩

/-- Pointwise update of a map modelled as a function. -/
def updConn (m : String → Int) (ip : String) (v : Int) : String → Int :=
  fun j => if j = ip then v else m j

/-- Pointwise update of the auth-attempts map. -/
def updAuth (m : String → List Int) (ip : String) (v : List Int) : String → List Int :=
  fun j => if j = ip then v else m j

/-- `canConnect`: `rl.connections[ip] < rl.maxConns`, read-only. -/
def RateLimiter.canConnect (rl : RateLimiter) (ip : String) : Bool :=
  rl.connections ip < rl.maxConns

/-- `addConnection`: `rl.connections[ip]++`. -/
def RateLimiter.addConnection (rl : RateLimiter) (ip : String) : RateLimiter :=
  { rl with connections := updConn rl.connections ip (rl.connections ip + 1) }

/-- `removeConnection`: decrement, deleting the entry (back to the zero value)
when it reaches zero or below. -/
def RateLimiter.removeConnection (rl : RateLimiter) (ip : String) : RateLimiter :=
  let dec := rl.connections ip - 1
  { rl with connections := updConn rl.connections ip (if dec ≤ 0 then 0 else dec) }

/-- Iterated `addConnection` for the same address. -/
def RateLimiter.addConnectionN (rl : RateLimiter) (ip : String) : Nat → RateLimiter
  | 0 => rl
  | n + 1 => (rl.addConnectionN ip n).addConnection ip

/-- The trailing-60-second window filter used by `canAuth` and `cleanup`:
keeps timestamps `t` with `t.After(now.Add(-time.Minute))`. -/
def inWindow (now : Int) (l : List Int) : List Int :=
  l.filter (fun t => now - 60 < t)

/-- `canAuth`: prune the address's attempts to the trailing minute, reject
without recording when `len(recent) >= maxAuth`, otherwise record `now` and
allow.  Returns the decision and the updated limiter. -/
def RateLimiter.canAuth (rl : RateLimiter) (now : Int) (ip : String) :
    Bool × RateLimiter :=
  let recent := inWindow now (rl.authAttempts ip)
  if rl.maxAuth ≤ (recent.length : Int) then
    (false, { rl with authAttempts := updAuth rl.authAttempts ip recent })
  else
    (true, { rl with authAttempts := updAuth rl.authAttempts ip (recent ++ [now]) })

/-- Decisions of `n` successive `canAuth` calls for one address at one instant. -/
def canAuthResults (rl : RateLimiter) (now : Int) (ip : String) : Nat → List Bool
  | 0 => []
  | n + 1 =>
    let r := rl.canAuth now ip
    r.1 :: canAuthResults r.2 now ip n

/-! ## Client address extraction (getClientIP / GetClientIP) -/

/-- Inbound request as seen by `getClientIP`: `Header.Get` returns the empty
string for an absent header, so absent and empty headers coincide. -/
structure HttpRequest where
  xForwardedFor : String
  xRealIP : String
  remoteAddr : String

/-- Index of the last occurrence of a character. -/
def lastIdxOf (c : Char) : List Char → Option Nat
  | [] => none
  | x :: xs =>
    match lastIdxOf c xs with
    | some i => some (i + 1)
    | none => if x = c then some 0 else none

/-- Index of the first occurrence of a character. -/
def firstIdxOf (c : Char) : List Char → Option Nat
  | [] => none
  | x :: xs => if x = c then some 0 else (firstIdxOf c xs).map (· + 1)

/-- Model of Go's `net.SplitHostPort` restricted to its host result:
`none` models any of its error returns (missing port, too many colons,
stray brackets), in which case the returned host is the empty string. -/
def splitHostPortAux (cs : List Char) : Option (List Char) :=
  match lastIdxOf ':' cs with
  | none => none
  | some i =>
    match cs with
    | '[' :: _ =>
      match firstIdxOf ']' cs with
      | none => none
      | some e =>
        if e + 1 = cs.length then none
        else if e + 1 = i then
          if (cs.drop 1).contains '[' then none
          else if (cs.drop (e + 1)).contains ']' then none
          else some ((cs.take e).drop 1)
        else none
    | _ =>
      let host := cs.take i
      if host.contains ':' then none
      else if cs.contains '[' then none
      else if cs.contains ']' then none
      else some host

/-- Host portion of `r.RemoteAddr` as used by `getClientIP`: the error from
`net.SplitHostPort` is discarded, leaving the zero-value host `""`. -/
def splitHostPortHost (s : String) : String :=
  match splitHostPortAux s.toList with
  | none => ""
  | some h => String.mk h

/-- `getClientIP`: X-Forwarded-For verbatim when non-empty, else X-Real-IP,
else the host part of the raw peer address. -/
def getClientIP (r : HttpRequest) : String :=
  if r.xForwardedFor ≠ "" then r.xForwardedFor
  else if r.xRealIP ≠ "" then r.xRealIP
  else splitHostPortHost r.remoteAddr

/-! ## WebSocket hub (Hub.run in cmd/server/main.go) -/

/-- Outbound queue capacity: `make(chan []byte, 256)`. -/
def sendCap : Nat := 256

/-- Registered client as seen by the hub: an identity standing for the Go
pointer, the messages buffered in its `send` channel, and whether that
channel has been closed. -/
structure BClient where
  id : Nat
  send : List (List Nat)
  closed : Bool
deriving DecidableEq

/-- One broadcast pass (`case message := <-h.broadcast`): every client whose
queue has room gets the same bytes appended (`select` send succeeds); a
client at capacity hits the `default` branch, its channel is closed and it is
deleted from the registry.  Returns (remaining registry, removed clients). -/
def broadcastPass (msg : List Nat) : List BClient → List BClient × List BClient
  | [] => ([], [])
  | c :: rest =>
    let r := broadcastPass msg rest
    if c.send.length < sendCap then
      ({ c with send := c.send ++ [msg] } :: r.1, r.2)
    else
      (r.1, { c with closed := true } :: r.2)

/-- Hub registry plus the log of `close(client.send)` calls it performed. -/
structure HubState where
  registry : List Nat
  closedLog : List Nat
deriving DecidableEq

/-- Register case (`h.clients[client] = true`): map insert, a no-op on the
set of keys when the client is already present. -/
def hubRegister (h : HubState) (c : Nat) : HubState :=
  if c ∈ h.registry then h else { h with registry := c :: h.registry }

/-- Unregister case: only when present, delete from the registry and close
the client's send channel; otherwise nothing happens. -/
def hubUnregister (h : HubState) (c : Nat) : HubState :=
  if c ∈ h.registry then ⟨h.registry.erase c, h.closedLog ++ [c]⟩ else h

inductive HubOp where
  | reg (c : Nat)
  | unreg (c : Nat)
deriving DecidableEq

def applyHubOp (h : HubState) : HubOp → HubState
  | .reg c => hubRegister h c
  | .unreg c => hubUnregister h c

def applyHubOps (h : HubState) (ops : List HubOp) : HubState :=
  ops.foldl applyHubOp h

/-! ## Reader-loop dispatch (handleWebSocket switch in cmd/server/main.go) -/

/-- Decoded wire envelope: type tag plus raw payload.  The payload stays
opaque; payload-dependent database outcomes come from the `DBEnv` oracle. -/
structure WSMessage where
  type : String
  payload : String
deriving DecidableEq

/-- Per-connection state mutated by the reader loop. -/
structure ConnState where
  userID : Int
  username : String
deriving DecidableEq

/-- Observable actions of one dispatch step: a response queued on this
client's send channel (tagged with its outbound type), a hub submission, or
a storage-layer call. -/
inductive Action where
  | send (tag : String)
  | broadcast (tag : String)
  | hubRegister
  | dbRead (query : String)
  | dbWrite (query : String)
deriving DecidableEq

/-- Outcomes of the storage layer and bcrypt, abstracted as oracles keyed by
the raw payload (the database is an external collaborator). -/
structure DBEnv where
  handleAuth : String → Option (Int × String)
  createConvOk : String → Bool
  saveMessageOk : String → Bool
  addParticipantOk : String → Bool
deriving Inhabited

/-- One iteration of the reader loop's `switch wsMsg.Type`, for an already
well-formed envelope.  Returns the connection state, the rate limiter, and
the actions performed, in program order. -/
def dispatch (env : DBEnv) (rl : RateLimiter) (now : Int) (clientIP : String)
    (st : ConnState) (msg : WSMessage) : ConnState × RateLimiter × List Action :=
  if msg.type = "auth" then
    let r := rl.canAuth now clientIP
    if r.1 = false then (st, r.2, [.send "auth_error"])
    else
      match env.handleAuth msg.payload with
      | none => (st, r.2, [.send "auth_error"])
      | some (uid, uname) =>
        (⟨uid, uname⟩, r.2,
          [.hubRegister, .dbRead "getUserConversations", .send "auth_success"])
  else if msg.type = "typing" then
    if st.userID = 0 then (st, rl, [])
    else (st, rl, [.broadcast "typing"])
  else if msg.type = "check_user" then
    (st, rl, [.dbRead "checkUserExists", .send "user_check_result"])
  else if msg.type = "create_conversation" then
    if st.userID = 0 then (st, rl, [])
    else if env.createConvOk msg.payload then
      (st, rl, [.dbWrite "createConversation", .send "conversation_created"])
    else (st, rl, [.dbWrite "createConversation", .send "error"])
  else if msg.type = "get_messages" then
    if st.userID = 0 then (st, rl, [])
    else (st, rl,
      [.dbWrite "updateReadReceipt", .dbRead "getConversationMessages", .send "messages"])
  else if msg.type = "read_receipt" then
    if st.userID = 0 then (st, rl, [])
    else (st, rl, [.dbWrite "updateReadReceipt"])
  else if msg.type = "send_message" then
    if st.userID = 0 then (st, rl, [])
    else if env.saveMessageOk msg.payload then
      (st, rl, [.dbWrite "saveMessage", .broadcast "new_message"])
    else (st, rl, [.dbWrite "saveMessage"])
  else if msg.type = "get_conversations" then
    if st.userID = 0 then (st, rl, [])
    else (st, rl, [.dbRead "getUserConversations", .send "conversations"])
  else if msg.type = "add_participant" then
    if st.userID = 0 then (st, rl, [])
    else if env.addParticipantOk msg.payload then
      (st, rl, [.dbRead "checkUserExists", .dbWrite "addParticipant",
        .dbRead "getUserConversations", .send "conversations"])
    else (st, rl, [.dbRead "checkUserExists", .send "error"])
  else if msg.type = "rename_conversation" then
    if st.userID = 0 then (st, rl, [])
    else (st, rl, [.dbWrite "renameConversation", .dbRead "getUserConversations",
      .send "conversations"])
  else if msg.type = "leave_conversation" then
    if st.userID = 0 then (st, rl, [])
    else (st, rl, [.dbWrite "leaveConversation", .dbRead "getUserConversations",
      .send "conversations"])
  else (st, rl, [])

/-- Database oracle used by concrete test scenarios. -/
def dbEnvEx : DBEnv :=
  ⟨fun _ => none, fun _ => true, fun _ => true, fun _ => true⟩

/-- Database oracle whose auth always succeeds with user id 7. -/
def dbEnvAuthOk : DBEnv :=
  ⟨fun _ => some (7, "u"), fun _ => true, fun _ => true, fun _ => true⟩

/-! ## Connection shutdown protocol (handleWebSocket writer goroutine and
reader loop, plus the hub's unregister handling) -/

/-- Joint state of one connection's reader loop, writer goroutine, send
channel, transport and hub membership. -/
structure LifeState where
  readerAlive : Bool
  writerAlive : Bool
  queuedSends : Nat
  sendClosed : Bool
  remoteClosed : Bool
  connCloses : Nat
  userID : Int
  inHub : Bool
  unregPending : Bool
deriving DecidableEq

inductive LifeEvent where
  | remoteClose
  | readerFail
  | hubUnreg
  | writerStep
deriving DecidableEq

/-- Which transitions are enabled: a read only fails once the peer or a
local `conn.Close()` has broken the transport; the hub only acts on a
pending unregister; the writer's `for msg := range client.send` can proceed
only when a message is buffered or the channel has been closed — otherwise
it blocks. -/
def lifeEnabled (s : LifeState) : LifeEvent → Bool
  | .remoteClose => !s.remoteClosed
  | .readerFail => s.readerAlive && (s.remoteClosed || s.connCloses != 0)
  | .hubUnreg => s.unregPending
  | .writerStep => s.writerAlive && (s.queuedSends != 0 || s.sendClosed)

/-- Transition function, following the code: on a read error the reader
returns, sending on `hub.unregister` only when `client.userID != 0`; the hub
closes the send channel only when the client is registered; the writer
writes queued messages (a failed write makes it return, running the deferred
`conn.Close()`), and exits closing the transport when the drained channel is
closed. -/
def lifeStep (s : LifeState) (e : LifeEvent) : LifeState :=
  if lifeEnabled s e then
    match e with
    | .remoteClose => { s with remoteClosed := true }
    | .readerFail =>
      if s.userID != 0 then { s with readerAlive := false, unregPending := true }
      else { s with readerAlive := false }
    | .hubUnreg =>
      if s.inHub then { s with unregPending := false, inHub := false, sendClosed := true }
      else { s with unregPending := false }
    | .writerStep =>
      if s.queuedSends != 0 then
        if s.remoteClosed || s.connCloses != 0 then
          { s with writerAlive := false, connCloses := s.connCloses + 1 }
        else { s with queuedSends := s.queuedSends - 1 }
      else { s with writerAlive := false, connCloses := s.connCloses + 1 }
  else s

def lifeRun (s : LifeState) (es : List LifeEvent) : LifeState :=
  es.foldl lifeStep s

/-- Fresh connection right after the upgrade: both loops running, empty
queue, not yet authenticated, not in the hub. -/
def lifeInit : LifeState :=
  ⟨true, true, 0, false, false, 0, 0, false, false⟩

/-- The failing scenario: the peer disconnects before the client ever
authenticates, then the read fails. -/
def unauthDisconnect : LifeState :=
  lifeRun lifeInit [.remoteClose, .readerFail]

/-- Authenticated client (user id 7, registered) whose peer disconnects. -/
def authConnected : LifeState :=
  ⟨true, true, 0, false, false, 0, 7, true, false⟩

/-- The authenticated shutdown: read fails, hub unregisters and closes the
send channel, the writer drains out and closes the transport. -/
def authDisconnect : LifeState :=
  lifeRun authConnected [.remoteClose, .readerFail, .hubUnreg, .writerStep]

/-! ## Client reconnect controller (model.Update wsConnected / wsError /
wsReconnect cases in the TUI client) -/

/-- Slice of the Bubbletea model driving reconnection. -/
structure RCState where
  connected : Bool
  isReconnecting : Bool
  reconnectCount : Nat
  hasFatalError : Bool
deriving DecidableEq

def rcInit : RCState := ⟨false, false, 0, false⟩

/-- `case wsConnected`: connected, banner cleared, counter reset. -/
def onWsConnected (s : RCState) : RCState :=
  { s with connected := true, isReconnecting := false, reconnectCount := 0 }

/-- `case wsError`: below 5 the counter increments and a retry is scheduled
after `reconnectCount` seconds (the new value); otherwise the error becomes
terminal.  Returns the state and the scheduled delay, `none` = gave up. -/
def onWsError (s : RCState) : RCState × Option Nat :=
  let s0 := { s with connected := false }
  if s0.reconnectCount < 5 then
    ({ s0 with isReconnecting := true, reconnectCount := s0.reconnectCount + 1 },
      some (s0.reconnectCount + 1))
  else
    ({ s0 with isReconnecting := false, hasFatalError := true }, none)

/-- Drive the controller against a connector: each list entry is the outcome
of one `connectToServer` attempt; a scheduled `wsReconnect` issues the next
attempt.  Returns the final state, the delays waited between attempts, and
the number of attempts issued. -/
def runReconnect (s : RCState) : List Bool → RCState × List Nat × Nat
  | [] => (s, [], 0)
  | outcome :: rest =>
    if outcome then (onWsConnected s, [], 1)
    else
      match onWsError s with
      | (s1, some d) =>
        let r := runReconnect s1 rest
        (r.1, d :: r.2.1, r.2.2 + 1)
      | (s1, none) => (s1, [], 1)

/-! ## Client session file (session package: encrypt / decrypt / Load)

Bytes are `Nat` values below 256.  `encoding/base64` (StdEncoding) is
modelled concretely; the AES-GCM AEAD from `crypto/cipher` is an external
collaborator modelled by an executable stand-in honouring its contract: the
sealed output is an invertible stream encryption of the plaintext followed
by a 16-byte authentication tag which `Open` recomputes and verifies,
failing with an error (never a crash) on any mismatch. -/

/-- Standard base64 alphabet as byte values (A-Z, a-z, 0-9, +, /). -/
def b64Alphabet : List Nat :=
  (List.range 26).map (fun i => 65 + i) ++ (List.range 26).map (fun i => 97 + i) ++
    (List.range 10).map (fun i => 48 + i) ++ [43, 47]

/-- The padding byte, ASCII `=`. -/
def padByte : Nat := 61

def b64Char (n : Nat) : Nat := b64Alphabet.getD n 0

def idxInList (c : Nat) : List Nat → Option Nat
  | [] => none
  | x :: xs => if x = c then some 0 else (idxInList c xs).map (· + 1)

def b64Index (c : Nat) : Option Nat := idxInList c b64Alphabet

/-- StdEncoding encode: 3 input bytes per 4 output characters, `=`-padded. -/
def b64EncodeBytes : List Nat → List Nat
  | [] => []
  | [a] => [b64Char (a / 4), b64Char (a % 4 * 16), padByte, padByte]
  | [a, b] => [b64Char (a / 4), b64Char (a % 4 * 16 + b / 16), b64Char (b % 16 * 4), padByte]
  | a :: b :: c :: rest =>
    b64Char (a / 4) :: b64Char (a % 4 * 16 + b / 16) :: b64Char (b % 16 * 4 + c / 64) ::
      b64Char (c % 64) :: b64EncodeBytes rest

/-- StdEncoding decode: `none` models `base64.CorruptInputError` (bad length,
character outside the alphabet, or misplaced padding). -/
def b64DecodeBytes : List Nat → Option (List Nat)
  | [] => some []
  | c1 :: c2 :: c3 :: c4 :: rest =>
    match b64Index c1, b64Index c2 with
    | some n1, some n2 =>
      if c3 = padByte then
        if c4 = padByte ∧ rest = [] then some [n1 * 4 + n2 / 16] else none
      else
        match b64Index c3 with
        | some n3 =>
          if c4 = padByte then
            if rest = [] then some [n1 * 4 + n2 / 16, n2 % 16 * 16 + n3 / 4] else none
          else
            match b64Index c4 with
            | some n4 =>
              (b64DecodeBytes rest).map
                (fun tail => (n1 * 4 + n2 / 16) :: (n2 % 16 * 16 + n3 / 4) ::
                  (n3 % 4 * 64 + n4) :: tail)
            | none => none
        | none => none
    | _, _ => none
  | _ => none

/-- `gcm.NonceSize()` for AES-GCM. -/
def nonceSize : Nat := 12

/-- `gcm.Overhead()`: the authentication tag length. -/
def tagSize : Nat := 16

/-- Abstract keystream byte of the AEAD stand-in. -/
def ksByte (key nonce : List Nat) (i : Nat) : Nat :=
  (key.sum * 31 + nonce.sum * 17 + i * 7 + 3) % 256

def streamEnc (key nonce : List Nat) : Nat → List Nat → List Nat
  | _, [] => []
  | i, b :: rest => (b + ksByte key nonce i) % 256 :: streamEnc key nonce (i + 1) rest

def streamDec (key nonce : List Nat) : Nat → List Nat → List Nat
  | _, [] => []
  | i, c :: rest =>
    (c + 256 - ksByte key nonce i) % 256 :: streamDec key nonce (i + 1) rest

/-- Authentication tag of the AEAD stand-in over key, nonce and ciphertext. -/
def macBytes (key nonce ct : List Nat) : List Nat :=
  (List.range tagSize).map
    (fun i => (key.sum * 13 + nonce.sum * 19 + ct.sum * 23 + ct.length * 29 + i) % 256)

/-- `gcm.Seal(nil, nonce, data, nil)`: ciphertext followed by the tag. -/
def gcmSeal (key nonce data : List Nat) : List Nat :=
  streamEnc key nonce 0 data ++ macBytes key nonce (streamEnc key nonce 0 data)

/-- `gcm.Open(nil, nonce, payload, nil)`: verify the trailing tag, recover
the plaintext, error on any mismatch or short input. -/
def gcmOpen (key nonce payload : List Nat) : Except String (List Nat) :=
  if payload.length < tagSize then .error "cipher: message authentication failed"
  else
    let ct := payload.take (payload.length - tagSize)
    let tag := payload.drop (payload.length - tagSize)
    if tag = macBytes key nonce ct then .ok (streamDec key nonce 0 ct)
    else .error "cipher: message authentication failed"

/-- `encrypt`: seal under a fresh random nonce (here a parameter, drawn from
crypto/rand in the source) and base64-encode `nonce ++ ciphertext`.  The key
is `getEncryptionKey()`'s digest of a machine-local identifier, abstracted
as a parameter. -/
def encrypt (key nonce data : List Nat) : List Nat :=
  b64EncodeBytes (nonce ++ gcmSeal key nonce data)

/-- `decrypt`: base64-decode, reject anything shorter than the nonce, then
split the nonce off and open. -/
def decrypt (key encoded : List Nat) : Except String (List Nat) :=
  match b64DecodeBytes encoded with
  | none => .error "illegal base64 data"
  | some data =>
    if data.length < nonceSize then .error "ciphertext too short"
    else gcmOpen key (data.take nonceSize) (data.drop nonceSize)

/-- Persisted client session record. -/
structure Session where
  serverURL : String
  username : String
  password : String
deriving DecidableEq

/-- `session.Load` with the filesystem and JSON codec abstracted: `file` is
the session file's raw bytes (`none` on any read failure, including a
missing config dir), `parse` models `json.Unmarshal` into a `Session`.
Returns the loaded session and, in the second component, the session handed
to `Save` by the legacy-plaintext migration path (`none` when nothing is
re-saved).  The Go function returns only `*Session` — total failures yield
`nil`, never an error. -/
def sessionLoad (key : List Nat) (parse : List Nat → Option Session)
    (file : Option (List Nat)) : Option Session × Option Session :=
  match file with
  | none => (none, none)
  | some data =>
    match decrypt key data with
    | .ok dec =>
      match parse dec with
      | some s => (some s, none)
      | none => (none, none)
    | .error _ =>
      match parse data with
      | some s => (some s, some s)
      | none => (none, none)

/-! ## Concrete instances used by test scenarios and witnesses -/

/-- Limiter with ceiling 1 and one attempt recorded at time 0 for "a". -/
def rlOneAttempt : RateLimiter :=
  ⟨fun _ => 0, fun j => if j = "a" then [0] else [], 10, 1⟩

/-- `rlOneAttempt` after a rejected attempt at time 10 (window pruned only). -/
def rlOneAttemptPruned : RateLimiter :=
  { rlOneAttempt with
      authAttempts :=
        updAuth rlOneAttempt.authAttempts "a" (inWindow 10 (rlOneAttempt.authAttempts "a")) }

/-- Client at the queue capacity, used by the C2 witness. -/
def fullClient : BClient := ⟨2, List.replicate 256 [7], false⟩

/-- JSON oracle that always parses to a fixed session. -/
def parseConst : List Nat → Option Session := fun _ => some ⟨"wss://s", "u", "pw"⟩

end Cldzmsg

namespace Cldzmsg

/-! ## Theorems -/

/-- Count after iterated adds. -/
theorem addConnectionN_count (rl : RateLimiter) (ip : String) (n : Nat) :
    (rl.addConnectionN ip n).connections ip = rl.connections ip + n := by
  induction n with
  | zero => simp [RateLimiter.addConnectionN]
  | succ k ih =>
    simp [RateLimiter.addConnectionN, RateLimiter.addConnection, updConn, ih]
    ring

/-- Iterated adds do not change the ceiling. -/
theorem addConnectionN_maxConns (rl : RateLimiter) (ip : String) (n : Nat) :
    (rl.addConnectionN ip n).maxConns = rl.maxConns := by
  induction n with
  | zero => rfl
  | succ k ih => simp [RateLimiter.addConnectionN, RateLimiter.addConnection, ih]

/-- C6: `canConnect` is a pure read returning true iff the address's open
connection count is strictly below the ceiling; starting from a zero count,
after exactly `ceiling` admits without a release it returns false, and after
one release it returns true again. -/
theorem canConnect_ceiling :
    (∀ (rl : RateLimiter) (ip : String),
      rl.canConnect ip = decide (rl.connections ip < rl.maxConns)) ∧
    (∀ (rl : RateLimiter) (ip : String) (n : Nat),
      rl.connections ip = 0 → rl.maxConns = (n : Int) → 0 < n →
      (rl.addConnectionN ip n).canConnect ip = false ∧
      ((rl.addConnectionN ip n).removeConnection ip).canConnect ip = true) := by
  refine ⟨fun rl ip => rfl, fun rl ip n h0 hmax hn => ?_⟩
  have hc := addConnectionN_count rl ip n
  have hm := addConnectionN_maxConns rl ip n
  constructor
  · simp only [RateLimiter.canConnect, hc, hm, h0, hmax, decide_eq_false_iff_not]
    omega
  · simp [RateLimiter.canConnect, RateLimiter.removeConnection, updConn, hc, hm,
      h0, hmax]
    split <;> omega

/-- C6 witness at the default ceiling 10. -/
theorem canConnect_ceiling_witness :
    ((newRateLimiter 10 5).addConnectionN "a" 10).canConnect "a" = false ∧
    (((newRateLimiter 10 5).addConnectionN "a" 10).removeConnection "a").canConnect "a"
      = true :=
  canConnect_ceiling.2 (newRateLimiter 10 5) "a" 10 rfl rfl (by decide)

/-- C5: `canAuth` allows an attempt exactly when fewer than `maxAuth`
recorded attempts remain inside the trailing 60-second window, recording the
new attempt timestamp on success; on rejection it records nothing beyond the
pruned in-window list, so a rejected attempt does not count against the
window, and once enough attempts age out a later attempt is allowed again;
at the default ceiling 5 a fresh address gets exactly 5 consecutive
successes before the 6th in-window attempt is rejected. -/
theorem canAuth_rolling_window :
    (∀ (rl : RateLimiter) (now : Int) (ip : String),
      ((inWindow now (rl.authAttempts ip)).length : Int) < rl.maxAuth →
      rl.canAuth now ip = (true,
        { rl with authAttempts :=
            updAuth rl.authAttempts ip (inWindow now (rl.authAttempts ip) ++ [now]) })) ∧
    (∀ (rl : RateLimiter) (now : Int) (ip : String),
      rl.maxAuth ≤ ((inWindow now (rl.authAttempts ip)).length : Int) →
      rl.canAuth now ip = (false,
        { rl with authAttempts :=
            updAuth rl.authAttempts ip (inWindow now (rl.authAttempts ip)) })) ∧
    (∀ (rl : RateLimiter) (now now' : Int) (ip : String) (rl' : RateLimiter),
      rl.canAuth now ip = (false, rl') →
      ((inWindow now' (rl'.authAttempts ip)).length : Int) < rl'.maxAuth →
      (rl'.canAuth now' ip).1 = true) ∧
    (canAuthResults (newRateLimiter 10 5) 0 "a" 6
      = [true, true, true, true, true, false]) := by
  refine ⟨fun rl now ip h => ?_, fun rl now ip h => ?_, fun rl now now' ip rl' h1 h2 => ?_,
    by decide⟩
  · simp only [RateLimiter.canAuth]
    rw [if_neg (not_le.mpr h)]
  · simp only [RateLimiter.canAuth]
    rw [if_pos h]
  · simp only [RateLimiter.canAuth]
    rw [if_neg (not_le.mpr h2)]

/-- C5 witness: an allowed attempt records its timestamp; at the ceiling the
attempt is rejected without recording; after the recorded attempt ages out of
the window (time 100 vs. attempt at 0), the next attempt is allowed. -/
theorem canAuth_rolling_window_witness :
    ((newRateLimiter 10 5).canAuth 100 "a" = (true,
      { newRateLimiter 10 5 with
          authAttempts := updAuth (newRateLimiter 10 5).authAttempts "a"
            (inWindow 100 ((newRateLimiter 10 5).authAttempts "a") ++ [100]) })) ∧
    (rlOneAttempt.canAuth 10 "a" = (false, rlOneAttemptPruned)) ∧
    ((rlOneAttemptPruned.canAuth 100 "a").1 = true) :=
  ⟨canAuth_rolling_window.1 (newRateLimiter 10 5) 100 "a" (by decide),
   canAuth_rolling_window.2.1 rlOneAttempt 10 "a" (by decide),
   canAuth_rolling_window.2.2.1 rlOneAttempt 10 100 "a" rlOneAttemptPruned
     (canAuth_rolling_window.2.1 rlOneAttempt 10 "a" (by decide)) (by decide)⟩

/-- C10: the rate-limit key prefers the entire X-Forwarded-For value
verbatim (even a comma-separated multi-hop list), then X-Real-IP, and only
otherwise falls back to the host portion of the raw peer address; hence any
request carrying one of these headers gets a fully client-chosen key. -/
theorem getClientIP_header_precedence :
    (∀ r : HttpRequest, r.xForwardedFor ≠ "" → getClientIP r = r.xForwardedFor) ∧
    (∀ r : HttpRequest, r.xForwardedFor = "" → r.xRealIP ≠ "" →
      getClientIP r = r.xRealIP) ∧
    (∀ r : HttpRequest, r.xForwardedFor = "" → r.xRealIP = "" →
      getClientIP r = splitHostPortHost r.remoteAddr) ∧
    (∀ v addr : String, v ≠ "" → getClientIP ⟨v, "", addr⟩ = v) ∧
    (getClientIP ⟨"203.0.113.7, 10.0.0.1", "", "198.51.100.9:443"⟩
      = "203.0.113.7, 10.0.0.1") ∧
    (splitHostPortHost "198.51.100.9:443" = "198.51.100.9") := by
  refine ⟨fun r h => ?_, fun r h1 h2 => ?_, fun r h1 h2 => ?_,
    fun v addr hv => ?_, by decide, by decide⟩
  · simp [getClientIP, h]
  · simp [getClientIP, h1, h2]
  · simp [getClientIP, h1, h2]
  · simp [getClientIP, hv]

/-- C10 witness: each branch of the precedence chain at a concrete request. -/
theorem getClientIP_header_precedence_witness :
    getClientIP ⟨"1.2.3.4, 9.9.9.9", "", "10.0.0.1:80"⟩ = "1.2.3.4, 9.9.9.9" ∧
    getClientIP ⟨"", "7.7.7.7", "10.0.0.1:80"⟩ = "7.7.7.7" ∧
    getClientIP ⟨"", "", "10.0.0.1:80"⟩ = splitHostPortHost "10.0.0.1:80" :=
  ⟨getClientIP_header_precedence.1 ⟨"1.2.3.4, 9.9.9.9", "", "10.0.0.1:80"⟩ (by decide),
   getClientIP_header_precedence.2.1 ⟨"", "7.7.7.7", "10.0.0.1:80"⟩ rfl (by decide),
   getClientIP_header_precedence.2.2.1 ⟨"", "", "10.0.0.1:80"⟩ rfl rfl⟩

/-- Registry part of one broadcast pass: exactly the clients with room, each
with the broadcast bytes appended. -/
theorem broadcastPass_kept (msg : List Nat) (clients : List BClient) :
    (broadcastPass msg clients).1
      = (clients.filter (fun c => c.send.length < sendCap)).map
          (fun c => { c with send := c.send ++ [msg] }) := by
  induction clients with
  | nil => rfl
  | cons c rest ih =>
    by_cases h : c.send.length < sendCap
    · simp [broadcastPass, h, ih]
    · simp [broadcastPass, h, ih]

/-- Removed part of one broadcast pass: exactly the clients at capacity,
each with its channel closed and its queue untouched. -/
theorem broadcastPass_removed (msg : List Nat) (clients : List BClient) :
    (broadcastPass msg clients).2
      = (clients.filter (fun c => ¬ c.send.length < sendCap)).map
          (fun c => { c with closed := true }) := by
  induction clients with
  | nil => rfl
  | cons c rest ih =>
    by_cases h : c.send.length < sendCap
    · simp [broadcastPass, h, ih]
    · simp [broadcastPass, h, Nat.not_lt.mp h, ih]

/-- C2: a broadcast pass appends the identical byte sequence to the queue of
every registered client with room, while every client at capacity is removed
from the registry with its channel closed and its queue unchanged — it
receives nothing. -/
theorem broadcast_delivery :
    ∀ (msg : List Nat) (clients : List BClient),
      ((broadcastPass msg clients).1
        = (clients.filter (fun c => c.send.length < sendCap)).map
            (fun c => { c with send := c.send ++ [msg] })) ∧
      ((broadcastPass msg clients).2
        = (clients.filter (fun c => ¬ c.send.length < sendCap)).map
            (fun c => { c with closed := true })) ∧
      (∀ c ∈ clients, c.send.length < sendCap →
        { c with send := c.send ++ [msg] } ∈ (broadcastPass msg clients).1) ∧
      (∀ c ∈ clients, ¬ c.send.length < sendCap →
        { c with closed := true } ∈ (broadcastPass msg clients).2) := by
  intro msg clients
  refine ⟨broadcastPass_kept msg clients, broadcastPass_removed msg clients, ?_, ?_⟩
  · intro c hc hroom
    rw [broadcastPass_kept]
    exact List.mem_map_of_mem _ (List.mem_filter.mpr ⟨hc, by simpa using hroom⟩)
  · intro c hc hfull
    rw [broadcastPass_removed]
    exact List.mem_map_of_mem _ (List.mem_filter.mpr ⟨hc, by simpa using hfull⟩)

set_option maxRecDepth 8192 in
/-- C2 witness: in a two-client registry, the client with room receives the
bytes and the full client is removed with its channel closed. -/
theorem broadcast_delivery_witness :
    (⟨1, [[9]], false⟩ : BClient) ∈ (broadcastPass [9] [⟨1, [], false⟩, fullClient]).1 ∧
    ({ fullClient with closed := true }) ∈ (broadcastPass [9] [⟨1, [], false⟩, fullClient]).2 :=
  ⟨(broadcast_delivery [9] [⟨1, [], false⟩, fullClient]).2.2.1 ⟨1, [], false⟩
      (by decide) (by decide),
   (broadcast_delivery [9] [⟨1, [], false⟩, fullClient]).2.2.2 fullClient
      (by decide) (by decide)⟩

/-- Register and unregister preserve registry distinctness. -/
theorem applyHubOp_nodup (h : HubState) (op : HubOp) (hd : h.registry.Nodup) :
    (applyHubOp h op).registry.Nodup := by
  cases op with
  | reg c =>
    show (hubRegister h c).registry.Nodup
    by_cases hm : c ∈ h.registry
    · simp only [hubRegister, if_pos hm]
      exact hd
    · simp only [hubRegister, if_neg hm]
      exact List.nodup_cons.mpr ⟨hm, hd⟩
  | unreg c =>
    show (hubUnregister h c).registry.Nodup
    by_cases hm : c ∈ h.registry
    · simp only [hubUnregister, if_pos hm]
      exact hd.erase c
    · simp only [hubUnregister, if_neg hm]
      exact hd

/-- Outside the auth case the dispatch never submits a hub registration. -/
theorem dispatch_no_register (env : DBEnv) (rl : RateLimiter) (now : Int)
    (clientIP : String) (st : ConnState) (msg : WSMessage)
    (hA : msg.type ≠ "auth") :
    Action.hubRegister ∉ (dispatch env rl now clientIP st msg).2.2 := by
  simp only [dispatch, if_neg hA]
  by_cases h1 : msg.type = "typing"
  · by_cases h0 : st.userID = 0 <;> simp [h1, h0]
  by_cases h2 : msg.type = "check_user"
  · simp [h1, h2]
  by_cases h3 : msg.type = "create_conversation"
  · by_cases h0 : st.userID = 0
    · simp [h1, h2, h3, h0]
    · by_cases hk : env.createConvOk msg.payload <;> simp [h1, h2, h3, h0, hk]
  by_cases h4 : msg.type = "get_messages"
  · by_cases h0 : st.userID = 0 <;> simp [h1, h2, h3, h4, h0]
  by_cases h5 : msg.type = "read_receipt"
  · by_cases h0 : st.userID = 0 <;> simp [h1, h2, h3, h4, h5, h0]
  by_cases h6 : msg.type = "send_message"
  · by_cases h0 : st.userID = 0
    · simp [h1, h2, h3, h4, h5, h6, h0]
    · by_cases hk : env.saveMessageOk msg.payload <;>
        simp [h1, h2, h3, h4, h5, h6, h0, hk]
  by_cases h7 : msg.type = "get_conversations"
  · by_cases h0 : st.userID = 0 <;> simp [h1, h2, h3, h4, h5, h6, h7, h0]
  by_cases h8 : msg.type = "add_participant"
  · by_cases h0 : st.userID = 0
    · simp [h1, h2, h3, h4, h5, h6, h7, h8, h0]
    · by_cases hk : env.addParticipantOk msg.payload <;>
        simp [h1, h2, h3, h4, h5, h6, h7, h8, h0, hk]
  by_cases h9 : msg.type = "rename_conversation"
  · by_cases h0 : st.userID = 0 <;> simp [h1, h2, h3, h4, h5, h6, h7, h8, h9, h0]
  by_cases h10 : msg.type = "leave_conversation"
  · by_cases h0 : st.userID = 0 <;>
      simp [h1, h2, h3, h4, h5, h6, h7, h8, h9, h10, h0]
  simp [h1, h2, h3, h4, h5, h6, h7, h8, h9, h10]

/-- C3: over every sequence of register/unregister operations the registry
stays duplicate-free; a client is gone as soon as its unregister completes;
unregistering an absent client changes nothing (in particular no second
close of its channel); and the reader loop submits a hub registration only
from the auth case after a successful authentication has set a non-zero
user id. -/
theorem hub_registry_invariants :
    (∀ (ops : List HubOp) (h : HubState), h.registry.Nodup →
      (applyHubOps h ops).registry.Nodup) ∧
    (∀ (h : HubState) (c : Nat), h.registry.Nodup →
      c ∉ (hubUnregister h c).registry) ∧
    (∀ (h : HubState) (c : Nat), c ∉ h.registry → hubUnregister h c = h) ∧
    (∀ (env : DBEnv) (rl : RateLimiter) (now : Int) (clientIP : String)
        (st : ConnState) (msg : WSMessage),
      (∀ p r, env.handleAuth p = some r → r.1 ≠ 0) →
      Action.hubRegister ∈ (dispatch env rl now clientIP st msg).2.2 →
      msg.type = "auth" ∧ (dispatch env rl now clientIP st msg).1.userID ≠ 0) := by
  refine ⟨?_, ?_, ?_, ?_⟩
  · intro ops
    induction ops with
    | nil => intro h hd; exact hd
    | cons op rest ih =>
      intro h hd
      exact ih (applyHubOp h op) (applyHubOp_nodup h op hd)
  · intro h c hd hmem
    by_cases hm : c ∈ h.registry
    · rw [hubUnregister, if_pos hm] at hmem
      exact ((hd.mem_erase_iff).mp hmem).1 rfl
    · rw [hubUnregister, if_neg hm] at hmem
      exact hm hmem
  · intro h c hm
    rw [hubUnregister, if_neg hm]
  · intro env rl now clientIP st msg honv hmem
    by_cases hA : msg.type = "auth"
    · refine ⟨hA, ?_⟩
      simp only [dispatch, if_pos hA] at hmem ⊢
      rcases hb : (rl.canAuth now clientIP).1 with _ | _
      · simp [hb] at hmem
      · rcases hh : env.handleAuth msg.payload with _ | ⟨uid, uname⟩
        · simp [hb, hh] at hmem
        · simpa [hb, hh] using honv _ _ hh
    · exact absurd hmem (dispatch_no_register env rl now clientIP st msg hA)

/-- C3 witness: a concrete operation sequence keeps the registry
duplicate-free; unregister removes; absent unregister is a no-op; and a
successful auth dispatch registers with a non-zero user id. -/
theorem hub_registry_invariants_witness :
    (applyHubOps ⟨[], []⟩ [.reg 1, .reg 2, .reg 1, .unreg 1]).registry.Nodup ∧
    (2 ∉ (hubUnregister ⟨[2, 3], []⟩ 2).registry) ∧
    (hubUnregister ⟨[3], []⟩ 2 = ⟨[3], []⟩) ∧
    ((⟨"auth", "p"⟩ : WSMessage).type = "auth" ∧
      (dispatch dbEnvAuthOk (newRateLimiter 10 5) 0 "ip" ⟨0, ""⟩
        ⟨"auth", "p"⟩).1.userID ≠ 0) :=
  ⟨hub_registry_invariants.1 [.reg 1, .reg 2, .reg 1, .unreg 1] ⟨[], []⟩ (by decide),
   hub_registry_invariants.2.1 ⟨[2, 3], []⟩ 2 (by decide),
   hub_registry_invariants.2.2.1 ⟨[3], []⟩ 2 (by decide),
   hub_registry_invariants.2.2.2 dbEnvAuthOk (newRateLimiter 10 5) 0 "ip" ⟨0, ""⟩
     ⟨"auth", "p"⟩ (fun p r hr => by
       simp only [dbEnvAuthOk] at hr
       cases hr
       decide) (by decide)⟩

/-- C1 counterexample: with the user id still 0 (unauthenticated), a
`check_user` message is not ignored — the server queries the database and
enqueues a `user_check_result` response. -/
theorem check_user_unauthenticated_responds :
    (dispatch dbEnvEx (newRateLimiter 10 5) 0 "ip" ⟨0, ""⟩ ⟨"check_user", "p"⟩).2.2
      = [.dbRead "checkUserExists", .send "user_check_result"] ∧
    Action.send "user_check_result"
      ∈ (dispatch dbEnvEx (newRateLimiter 10 5) 0 "ip" ⟨0, ""⟩ ⟨"check_user", "p"⟩).2.2 := by
  constructor
  · rfl
  · decide

/-- C1 (amended): while unauthenticated, every inbound message whose type is
neither `auth` nor `check_user` is silently ignored — the dispatch performs
no action and leaves all state unchanged; `check_user` alone is served even
before authentication. -/
theorem unauthenticated_non_auth_ignored :
    ∀ (env : DBEnv) (rl : RateLimiter) (now : Int) (clientIP : String)
      (st : ConnState) (msg : WSMessage),
      st.userID = 0 → msg.type ≠ "auth" → msg.type ≠ "check_user" →
      dispatch env rl now clientIP st msg = (st, rl, []) := by
  intro env rl now clientIP st msg h0 ha hc
  simp [dispatch, h0, ha, hc]

/-- C1 amended-claim witness: an unauthenticated `send_message` is a no-op. -/
theorem unauthenticated_non_auth_ignored_witness :
    dispatch dbEnvEx (newRateLimiter 10 5) 0 "ip" ⟨0, ""⟩ ⟨"send_message", "p"⟩
      = (⟨0, ""⟩, newRateLimiter 10 5, []) :=
  unauthenticated_non_auth_ignored dbEnvEx (newRateLimiter 10 5) 0 "ip" ⟨0, ""⟩
    ⟨"send_message", "p"⟩ rfl (by decide) (by decide)

/-- C4 counterexample: with a connector that always fails, the controller
issues a 6th connection attempt — after the 5th failure it schedules another
retry instead of entering the terminal failure state, which it only reaches
once the 6th attempt has failed. -/
theorem reconnect_sixth_attempt_issued :
    (runReconnect rcInit (List.replicate 6 false)).2.2 = 6 ∧
    (runReconnect rcInit (List.replicate 5 false)).1.hasFatalError = false ∧
    (runReconnect rcInit (List.replicate 6 false)).1.hasFatalError = true := by
  decide

/-- C4 (amended): a connector failing 4 times then succeeding yields the
connected state with the counter reset to 0 after waits of 1s, 2s, 3s, 4s;
an always-failing connector drives the controller into the terminal failure
state after exactly 6 attempts (the initial one plus 5 scheduled retries,
with waits of 1s through 5s) and issues no 7th attempt. -/
theorem reconnect_backoff_amended :
    (runReconnect rcInit [false, false, false, false, true]
      = (⟨true, false, 0, false⟩, [1, 2, 3, 4], 5)) ∧
    (∀ n : Nat, runReconnect rcInit (List.replicate (6 + n) false)
      = (⟨false, false, 5, true⟩, [1, 2, 3, 4, 5], 6)) := by
  constructor
  · decide
  · intro n
    rw [List.replicate_add]
    show runReconnect rcInit
      ([false, false, false, false, false, false] ++ List.replicate n false) = _
    simp [runReconnect, onWsError, onWsConnected, rcInit]

/-- C7: evaluating the shutdown protocol on the failing input.  When the
peer disconnects before authentication, the reader loop exits without
notifying the hub; the send channel is never closed, so the system is stuck
with the writer goroutine alive forever and the transport never closed —
against the requirement that both loops exit and the transport close exactly
once.  By contrast, an authenticated client's disconnect shuts both loops
down with exactly one `conn.Close()`. -/
theorem unauth_disconnect_leaks :
    (unauthDisconnect.readerAlive = false ∧
     unauthDisconnect.writerAlive = true ∧
     unauthDisconnect.connCloses = 0 ∧
     lifeEnabled unauthDisconnect .remoteClose = false ∧
     lifeEnabled unauthDisconnect .readerFail = false ∧
     lifeEnabled unauthDisconnect .hubUnreg = false ∧
     lifeEnabled unauthDisconnect .writerStep = false) ∧
    (authDisconnect.readerAlive = false ∧
     authDisconnect.writerAlive = false ∧
     authDisconnect.connCloses = 1 ∧
     authDisconnect.inHub = false) := by
  decide

/-- Every alphabet index round-trips through its character. -/
theorem b64Index_b64Char_fin : ∀ n : Fin 64, b64Index (b64Char n.val) = some n.val := by
  decide

/-- No alphabet character is the padding byte. -/
theorem b64Char_ne_pad_fin : ∀ n : Fin 64, b64Char n.val ≠ padByte := by decide

theorem idxInList_lt_length : ∀ (l : List Nat) (c i : Nat),
    idxInList c l = some i → i < l.length := by
  intro l
  induction l with
  | nil => intro c i h; simp [idxInList] at h
  | cons x xs ih =>
    intro c i h
    simp only [idxInList] at h
    by_cases hx : x = c
    · rw [if_pos hx] at h
      cases h
      simp
    · rw [if_neg hx] at h
      rcases ho : idxInList c xs with _ | j
      · rw [ho] at h; simp at h
      · rw [ho] at h
        simp at h
        have := ih c j ho
        simp [List.length_cons]
        omega

theorem b64Index_lt (c n : Nat) (h : b64Index c = some n) : n < 64 :=
  idxInList_lt_length b64Alphabet c n h

/-- StdEncoding decode inverts encode on byte lists. -/
theorem b64_roundtrip : ∀ (l : List Nat), (∀ b ∈ l, b < 256) →
    b64DecodeBytes (b64EncodeBytes l) = some l
  | [], _ => rfl
  | [a], h => by
    have ha : a < 256 := h a (by simp)
    have h1 : b64Index (b64Char (a / 4)) = some (a / 4) :=
      b64Index_b64Char_fin ⟨a / 4, by omega⟩
    have h2 : b64Index (b64Char (a % 4 * 16)) = some (a % 4 * 16) :=
      b64Index_b64Char_fin ⟨a % 4 * 16, by omega⟩
    simp [b64EncodeBytes, b64DecodeBytes, h1, h2]
    omega
  | [a, b], h => by
    have ha : a < 256 := h a (by simp)
    have hb : b < 256 := h b (by simp)
    have h1 : b64Index (b64Char (a / 4)) = some (a / 4) :=
      b64Index_b64Char_fin ⟨a / 4, by omega⟩
    have h2 : b64Index (b64Char (a % 4 * 16 + b / 16)) = some (a % 4 * 16 + b / 16) :=
      b64Index_b64Char_fin ⟨a % 4 * 16 + b / 16, by omega⟩
    have h3ne : b64Char (b % 16 * 4) ≠ padByte := b64Char_ne_pad_fin ⟨b % 16 * 4, by omega⟩
    have h3 : b64Index (b64Char (b % 16 * 4)) = some (b % 16 * 4) :=
      b64Index_b64Char_fin ⟨b % 16 * 4, by omega⟩
    simp [b64EncodeBytes, b64DecodeBytes, h1, h2, h3, h3ne]
    omega
  | [a, b, c], h => by
    have ha : a < 256 := h a (by simp)
    have hb : b < 256 := h b (by simp)
    have hc : c < 256 := h c (by simp)
    have h1 : b64Index (b64Char (a / 4)) = some (a / 4) :=
      b64Index_b64Char_fin ⟨a / 4, by omega⟩
    have h2 : b64Index (b64Char (a % 4 * 16 + b / 16)) = some (a % 4 * 16 + b / 16) :=
      b64Index_b64Char_fin ⟨a % 4 * 16 + b / 16, by omega⟩
    have h3ne : b64Char (b % 16 * 4 + c / 64) ≠ padByte :=
      b64Char_ne_pad_fin ⟨b % 16 * 4 + c / 64, by omega⟩
    have h3 : b64Index (b64Char (b % 16 * 4 + c / 64)) = some (b % 16 * 4 + c / 64) :=
      b64Index_b64Char_fin ⟨b % 16 * 4 + c / 64, by omega⟩
    have h4ne : b64Char (c % 64) ≠ padByte := b64Char_ne_pad_fin ⟨c % 64, by omega⟩
    have h4 : b64Index (b64Char (c % 64)) = some (c % 64) :=
      b64Index_b64Char_fin ⟨c % 64, by omega⟩
    simp [b64EncodeBytes, b64DecodeBytes, h1, h2, h3, h3ne, h4, h4ne]
    omega
  | a :: b :: c :: d :: rest, h => by
    have ha : a < 256 := h a (by simp)
    have hb : b < 256 := h b (by simp)
    have hc : c < 256 := h c (by simp)
    have ih := b64_roundtrip (d :: rest) (fun x hx => h x (by simp at hx ⊢; tauto))
    have h1 : b64Index (b64Char (a / 4)) = some (a / 4) :=
      b64Index_b64Char_fin ⟨a / 4, by omega⟩
    have h2 : b64Index (b64Char (a % 4 * 16 + b / 16)) = some (a % 4 * 16 + b / 16) :=
      b64Index_b64Char_fin ⟨a % 4 * 16 + b / 16, by omega⟩
    have h3ne : b64Char (b % 16 * 4 + c / 64) ≠ padByte :=
      b64Char_ne_pad_fin ⟨b % 16 * 4 + c / 64, by omega⟩
    have h3 : b64Index (b64Char (b % 16 * 4 + c / 64)) = some (b % 16 * 4 + c / 64) :=
      b64Index_b64Char_fin ⟨b % 16 * 4 + c / 64, by omega⟩
    have h4ne : b64Char (c % 64) ≠ padByte := b64Char_ne_pad_fin ⟨c % 64, by omega⟩
    have h4 : b64Index (b64Char (c % 64)) = some (c % 64) :=
      b64Index_b64Char_fin ⟨c % 64, by omega⟩
    simp [b64EncodeBytes, b64DecodeBytes, h1, h2, h3, h3ne, h4, h4ne, ih]
    omega

/-- Bytes produced by a successful decode are below 256. -/
theorem b64Decode_lt : ∀ (l m : List Nat), b64DecodeBytes l = some m → ∀ b ∈ m, b < 256
  | [], m, h => by cases h; simp
  | [x], m, h => by simp [b64DecodeBytes] at h
  | [x, y], m, h => by simp [b64DecodeBytes] at h
  | [x, y, z], m, h => by simp [b64DecodeBytes] at h
  | c1 :: c2 :: c3 :: c4 :: rest, m, h => by
    simp only [b64DecodeBytes] at h
    rcases h1 : b64Index c1 with _ | n1 <;> rw [h1] at h
    · simp at h
    rcases h2 : b64Index c2 with _ | n2 <;> rw [h2] at h
    · simp at h
    dsimp only at h
    have hn1 := b64Index_lt c1 n1 h1
    have hn2 := b64Index_lt c2 n2 h2
    by_cases hc3 : c3 = padByte
    · rw [if_pos hc3] at h
      by_cases hr : c4 = padByte ∧ rest = []
      · rw [if_pos hr] at h
        simp only [Option.some.injEq] at h
        subst h
        intro b hb
        simp at hb
        omega
      · rw [if_neg hr] at h
        simp at h
    · rw [if_neg hc3] at h
      rcases h3 : b64Index c3 with _ | n3 <;> rw [h3] at h
      · simp at h
      dsimp only at h
      have hn3 := b64Index_lt c3 n3 h3
      by_cases hc4 : c4 = padByte
      · rw [if_pos hc4] at h
        by_cases hr : rest = []
        · rw [if_pos hr] at h
          simp only [Option.some.injEq] at h
          subst h
          intro b hb
          simp at hb
          rcases hb with hb | hb <;> omega
        · rw [if_neg hr] at h
          simp at h
      · rw [if_neg hc4] at h
        rcases h4 : b64Index c4 with _ | n4 <;> rw [h4] at h
        · simp at h
        dsimp only at h
        have hn4 := b64Index_lt c4 n4 h4
        rcases hrec : b64DecodeBytes rest with _ | tail <;> rw [hrec] at h
        · simp at h
        simp only [Option.map_some', Option.some.injEq] at h
        subst h
        intro b hb
        simp only [List.mem_cons] at hb
        rcases hb with hb | hb | hb | hb
        · omega
        · omega
        · omega
        · exact b64Decode_lt rest tail hrec b hb

theorem streamEnc_length (key nonce : List Nat) : ∀ (i : Nat) (l : List Nat),
    (streamEnc key nonce i l).length = l.length
  | _, [] => rfl
  | i, b :: rest => by
    simp [streamEnc, streamEnc_length key nonce (i + 1) rest]

theorem streamEnc_lt (key nonce : List Nat) : ∀ (i : Nat) (l : List Nat),
    ∀ x ∈ streamEnc key nonce i l, x < 256
  | _, [], x, hx => by simp [streamEnc] at hx
  | i, b :: rest, x, hx => by
    simp only [streamEnc, List.mem_cons] at hx
    rcases hx with h | h
    · omega
    · exact streamEnc_lt key nonce (i + 1) rest x h

theorem streamDec_streamEnc (key nonce : List Nat) : ∀ (i : Nat) (l : List Nat),
    (∀ b ∈ l, b < 256) → streamDec key nonce i (streamEnc key nonce i l) = l
  | _, [], _ => rfl
  | i, b :: rest, h => by
    have hb : b < 256 := h b (by simp)
    have hk : ksByte key nonce i < 256 := Nat.mod_lt _ (by omega)
    have ih := streamDec_streamEnc key nonce (i + 1) rest (fun x hx => h x (by simp [hx]))
    simp [streamEnc, streamDec, ih]
    omega

theorem streamEnc_streamDec (key nonce : List Nat) : ∀ (i : Nat) (l : List Nat),
    (∀ b ∈ l, b < 256) → streamEnc key nonce i (streamDec key nonce i l) = l
  | _, [], _ => rfl
  | i, c :: rest, h => by
    have hc : c < 256 := h c (by simp)
    have hk : ksByte key nonce i < 256 := Nat.mod_lt _ (by omega)
    have ih := streamEnc_streamDec key nonce (i + 1) rest (fun x hx => h x (by simp [hx]))
    simp [streamEnc, streamDec, ih]
    omega

theorem macBytes_length (key nonce ct : List Nat) :
    (macBytes key nonce ct).length = tagSize := by
  simp [macBytes]

theorem macBytes_lt (key nonce ct : List Nat) : ∀ x ∈ macBytes key nonce ct, x < 256 := by
  intro x hx
  simp only [macBytes, List.mem_map] at hx
  rcases hx with ⟨i, _, rfl⟩
  exact Nat.mod_lt _ (by omega)

/-- Opening a sealed payload with the same key and nonce recovers the data. -/
theorem gcmOpen_gcmSeal (key nonce data : List Nat) (h : ∀ b ∈ data, b < 256) :
    gcmOpen key nonce (gcmSeal key nonce data) = .ok data := by
  have hmlen := macBytes_length key nonce (streamEnc key nonce 0 data)
  have ht : tagSize = 16 := rfl
  simp only [gcmSeal, gcmOpen, List.length_append, hmlen]
  rw [if_neg (by omega)]
  rw [Nat.add_sub_cancel, List.take_left, List.drop_left]
  rw [if_pos rfl]
  rw [streamDec_streamEnc key nonce 0 data h]

/-- Decrypt inverts encrypt for any derived key, fresh nonce and session
bytes. -/
theorem decrypt_encrypt (key nonce data : List Nat) (hn : nonce.length = nonceSize)
    (hnb : ∀ b ∈ nonce, b < 256) (hd : ∀ b ∈ data, b < 256) :
    decrypt key (encrypt key nonce data) = .ok data := by
  have hall : ∀ b ∈ nonce ++ gcmSeal key nonce data, b < 256 := by
    intro b hb
    rcases List.mem_append.mp hb with hx | hx
    · exact hnb b hx
    · rcases List.mem_append.mp (by simpa [gcmSeal] using hx) with h2 | h2
      · exact streamEnc_lt key nonce 0 data b h2
      · exact macBytes_lt key nonce _ b h2
  have hrt := b64_roundtrip (nonce ++ gcmSeal key nonce data) hall
  simp only [decrypt, encrypt, hrt]
  have hlen : nonceSize ≤ (nonce ++ gcmSeal key nonce data).length := by
    simp [List.length_append, hn]
  rw [if_neg (by omega)]
  rw [← hn, List.take_left, List.drop_left]
  exact gcmOpen_gcmSeal key nonce data hd

/-- Anything `decrypt` accepts is a genuine sealing: corrupted inputs whose
tag does not verify are rejected with an error. -/
theorem decrypt_ok_authentic (key encoded m : List Nat)
    (h : decrypt key encoded = .ok m) :
    ∃ nonce rest, b64DecodeBytes encoded = some (nonce ++ rest) ∧
      nonce.length = nonceSize ∧ gcmSeal key nonce m = rest := by
  simp only [decrypt] at h
  rcases hdec : b64DecodeBytes encoded with _ | data <;> rw [hdec] at h
  · simp at h
  dsimp only at h
  by_cases hlen : data.length < nonceSize
  · rw [if_pos hlen] at h
    simp at h
  rw [if_neg hlen] at h
  simp only [gcmOpen] at h
  by_cases hplen : (data.drop nonceSize).length < tagSize
  · rw [if_pos hplen] at h
    simp at h
  rw [if_neg hplen] at h
  by_cases htag :
      (data.drop nonceSize).drop ((data.drop nonceSize).length - tagSize)
        = macBytes key (data.take nonceSize)
            ((data.drop nonceSize).take ((data.drop nonceSize).length - tagSize))
  · rw [if_pos htag] at h
    simp only [Except.ok.injEq] at h
    refine ⟨data.take nonceSize, data.drop nonceSize, ?_, ?_, ?_⟩
    · rw [List.take_append_drop]
    · rw [List.length_take]
      omega
    · have hct : ∀ b ∈ (data.drop nonceSize).take ((data.drop nonceSize).length - tagSize),
          b < 256 := by
        intro b hb
        exact b64Decode_lt encoded data hdec b
          (List.mem_of_mem_drop (List.mem_of_mem_take hb))
      rw [← h]
      simp only [gcmSeal, streamEnc_streamDec key (data.take nonceSize) 0 _ hct]
      rw [← htag]
      exact List.take_append_drop _ _
  · rw [if_neg htag] at h
    simp at h

/-- C9: encrypting a session record then decrypting it with the same derived
key reproduces the bytes exactly; decrypting malformed input — invalid
base64, or decoded data shorter than the nonce — returns an error, and any
input `decrypt` accepts is a genuine sealing under the key (so a ciphertext
whose authentication tag does not verify is rejected with an error, never a
crash — `decrypt` is a total function into `Except`). -/
theorem session_crypto_roundtrip :
    (∀ key nonce data : List Nat, nonce.length = nonceSize →
      (∀ b ∈ nonce, b < 256) → (∀ b ∈ data, b < 256) →
      decrypt key (encrypt key nonce data) = .ok data) ∧
    (∀ key encoded : List Nat, b64DecodeBytes encoded = none →
      decrypt key encoded = .error "illegal base64 data") ∧
    (∀ key encoded data : List Nat, b64DecodeBytes encoded = some data →
      data.length < nonceSize → decrypt key encoded = .error "ciphertext too short") ∧
    (∀ key encoded m : List Nat, decrypt key encoded = .ok m →
      ∃ nonce rest, b64DecodeBytes encoded = some (nonce ++ rest) ∧
        nonce.length = nonceSize ∧ gcmSeal key nonce m = rest) := by
  refine ⟨decrypt_encrypt, ?_, ?_, decrypt_ok_authentic⟩
  · intro key encoded h
    simp [decrypt, h]
  · intro key encoded data h hl
    simp [decrypt, h, hl]

/-- C9 witness: a concrete round trip, a concrete invalid-base64 rejection,
a concrete too-short rejection, and the authenticity inversion at the
concrete round-trip ciphertext. -/
theorem session_crypto_roundtrip_witness :
    decrypt [1] (encrypt [1] (List.replicate 12 2) [5, 6, 7]) = .ok [5, 6, 7] ∧
    decrypt [1] [0] = .error "illegal base64 data" ∧
    decrypt [1] (b64EncodeBytes [9]) = .error "ciphertext too short" ∧
    (∃ nonce rest,
      b64DecodeBytes (encrypt [1] (List.replicate 12 2) [5, 6, 7]) = some (nonce ++ rest) ∧
      nonce.length = nonceSize ∧ gcmSeal [1] nonce [5, 6, 7] = rest) :=
  ⟨session_crypto_roundtrip.1 [1] (List.replicate 12 2) [5, 6, 7] (by decide)
      (by decide) (by decide),
   session_crypto_roundtrip.2.1 [1] [0] rfl,
   session_crypto_roundtrip.2.2.1 [1] (b64EncodeBytes [9]) [9] (by decide) (by decide),
   session_crypto_roundtrip.2.2.2 [1] (encrypt [1] (List.replicate 12 2) [5, 6, 7]) [5, 6, 7]
     (decrypt_encrypt [1] (List.replicate 12 2) [5, 6, 7] (by decide) (by decide) (by decide))⟩

/-- C8: loading the persisted session falls back to parsing the raw file as
legacy plaintext when decryption fails, re-saving it encrypted and returning
it on success; any total failure to read, decrypt or parse yields no saved
session (`nil`) and no re-save, never an error — the return type carries no
error at all. -/
theorem session_load_fallback :
    (∀ (key : List Nat) (parse : List Nat → Option Session),
      sessionLoad key parse none = (none, none)) ∧
    (∀ (key : List Nat) (parse : List Nat → Option Session) (data : List Nat)
        (e : String) (s : Session),
      decrypt key data = .error e → parse data = some s →
      sessionLoad key parse (some data) = (some s, some s)) ∧
    (∀ (key : List Nat) (parse : List Nat → Option Session) (data : List Nat)
        (e : String),
      decrypt key data = .error e → parse data = none →
      sessionLoad key parse (some data) = (none, none)) ∧
    (∀ (key : List Nat) (parse : List Nat → Option Session) (data dec : List Nat),
      decrypt key data = .ok dec →
      sessionLoad key parse (some data) = (parse dec, none)) := by
  refine ⟨fun k p => rfl, ?_, ?_, ?_⟩
  · intro k p data e s hd hp
    simp [sessionLoad, hd, hp]
  · intro k p data e hd hp
    simp [sessionLoad, hd, hp]
  · intro k p data dec hd
    rcases hp : p dec with _ | s <;> simp [sessionLoad, hd, hp]

/-- C8 witness: a missing file loads nothing; a file that fails decryption
but parses as legacy JSON is returned and re-saved; one that fails both
yields nothing; a decryptable file is parsed from the decrypted bytes with
no re-save. -/
theorem session_load_fallback_witness :
    sessionLoad [] parseConst none = (none, none) ∧
    sessionLoad [] parseConst (some [0])
      = (some ⟨"wss://s", "u", "pw"⟩, some ⟨"wss://s", "u", "pw"⟩) ∧
    sessionLoad [] (fun _ => none) (some [0]) = (none, none) ∧
    sessionLoad [1] parseConst (some (encrypt [1] (List.replicate 12 2) [5]))
      = (some ⟨"wss://s", "u", "pw"⟩, none) :=
  ⟨session_load_fallback.1 [] parseConst,
   session_load_fallback.2.1 [] parseConst [0] "illegal base64 data"
     ⟨"wss://s", "u", "pw"⟩ rfl rfl,
   session_load_fallback.2.2.1 [] (fun _ => none) [0] "illegal base64 data" rfl rfl,
   session_load_fallback.2.2.2 [1] parseConst (encrypt [1] (List.replicate 12 2) [5]) [5]
     (decrypt_encrypt [1] (List.replicate 12 2) [5] (by decide) (by decide) (by decide))⟩

end Cldzmsg
